import Mathlib

/-!
Verification of the scalar Kalman filter in src/src/lib.rs
(crate kalman_no_control).

The Rust code works on f64; this embedding uses exact rationals (ℚ) for the
field arithmetic, so every operation is computable.  Mutation through
`&mut self` is embedded as state passing: every operation returns the
post-call state together with its result, so the early `return Err(..)` of
the singularity guard corresponds to returning the input state unchanged,
exactly as in the Rust code the guard fires before any field is written.
The `?` operator of Rust corresponds to mapping over / matching on the
`Except` result.
-/

set_option maxHeartbeats 1600000

/-- The fixed singularity threshold `1e-8` from `ScalarKalman::update`. -/
def eps : ℚ := 1 / 100000000

/-- The error enum `KalmanError` of src/src/lib.rs.  Its single variant
`FailedScalarInverse` carries the `scalar_name` field. -/
inductive KalmanError where
  | FailedScalarInverse (scalar_name : String)
deriving DecidableEq, Repr

/-- The user-visible message of a `KalmanError`, from the `thiserror`
attribute `#[error("failed to invert scalar \x7bscalar_name\x7d in operation")]`
on the `FailedScalarInverse` variant. -/
def KalmanError.message : KalmanError → String
  | .FailedScalarInverse scalar_name =>
      "failed to invert scalar " ++ scalar_name ++ " in operation"

/-- The struct `ScalarKalman`: estimate `x`, covariance `P`, and the four
model coefficients `A`, `H`, `Q`, `R`. -/
structure ScalarKalman where
  x : ℚ
  P : ℚ
  A : ℚ
  H : ℚ
  Q : ℚ
  R : ℚ
deriving DecidableEq, Repr

namespace ScalarKalman

/-- `ScalarKalman::new`: the optional initial conditions `x0`, `P0` default
to `0.0`; the four coefficients are stored verbatim. -/
def new (A H Q R : ℚ) (x0 P0 : Option ℚ) : ScalarKalman :=
  { x := x0.getD 0, P := P0.getD 0, A := A, H := H, Q := Q, R := R }

/-- `ScalarKalman::predict`: `self.x *= self.A` and
`self.P = self.A * self.P * self.A + self.Q`. -/
def predict (s : ScalarKalman) : ScalarKalman :=
  { s with x := s.x * s.A, P := s.A * s.P * s.A + s.Q }

/-- `ScalarKalman::update`: computes the innovation `y = z - H * x` and its
covariance `S = H * P * H + R`; if `|S| < 1e-8` it returns the
`FailedScalarInverse` error before any mutation, otherwise it applies the
gain `K = P * H * (1 / S)` with `x += K * y` and `P *= 1 - K * H`.
The returned pair is (post-call state, result). -/
def update (s : ScalarKalman) (z : ℚ) : ScalarKalman × Except KalmanError Unit :=
  let y := z - s.H * s.x
  let S := s.H * s.P * s.H + s.R
  if |S| < eps then
    (s, Except.error (KalmanError.FailedScalarInverse
        "Innovation (measurement pre-fit residual `S`)"))
  else
    let S_inv := 1 / S
    let K := s.P * s.H * S_inv
    ({ s with x := s.x + K * y, P := s.P * (1 - K * s.H) }, Except.ok ())

/-- `ScalarKalman::advance`: `self.predict(); self.update(z)?; Ok(self.x)` —
predict, then update with `z`; an update error is propagated with the state
as the update left it, and on success the post-update `x` is returned. -/
def advance (s : ScalarKalman) (z : ℚ) : ScalarKalman × Except KalmanError ℚ :=
  let s1 := s.predict
  let r := s1.update z
  (r.1, Except.map (fun _ => r.1.x) r.2)

end ScalarKalman

/-- The batch function `kfilter`: advances the filter once per element of
`vec` in order, collecting the returned estimates with `out.push(...)`; the
first error aborts the loop via `?`, discarding the partial output, with the
state keeping all mutations made up to and including the failing `advance`
call. -/
def kfilter (s : ScalarKalman) : List ℚ → ScalarKalman × Except KalmanError (List ℚ)
  | [] => (s, Except.ok [])
  | v :: rest =>
    match s.advance v with
    | (s1, Except.ok xv) =>
      let r2 := kfilter s1 rest
      (r2.1, Except.map (fun out => xv :: out) r2.2)
    | (s1, Except.error e) => (s1, Except.error e)

/-- Reference sequence of individual `advance` calls, following §8 P4 of the
spec: call `advance` once per observation in the given order against the
threaded state, collecting each successful return value; `none` when any
step fails. -/
def advanceEach (s : ScalarKalman) : List ℚ → Option (ScalarKalman × List ℚ)
  | [] => some (s, [])
  | z :: rest =>
    match s.advance z with
    | (s1, Except.ok v) => (advanceEach s1 rest).map fun p => (p.1, v :: p.2)
    | (_, Except.error _) => none

/-- Iterated `advance` with a constant observation: the state after `n`
calls of `advance z`, each call acting on the state the previous one left. -/
def advanceIter (s : ScalarKalman) (z : ℚ) : Nat → ScalarKalman
  | 0 => s
  | n + 1 => ((advanceIter s z n).advance z).1

namespace ScalarKalman

theorem update_ok (s : ScalarKalman) (z : ℚ) (h : ¬ |s.H * s.P * s.H + s.R| < eps) :
    s.update z =
      ({ s with
          x := s.x + s.P * s.H * (1 / (s.H * s.P * s.H + s.R)) * (z - s.H * s.x),
          P := s.P * (1 - s.P * s.H * (1 / (s.H * s.P * s.H + s.R)) * s.H) },
        Except.ok ()) := by
  rw [update]
  simp only [if_neg h]

theorem update_err (s : ScalarKalman) (z : ℚ) (h : |s.H * s.P * s.H + s.R| < eps) :
    s.update z =
      (s, Except.error (KalmanError.FailedScalarInverse
          "Innovation (measurement pre-fit residual `S`)")) := by
  rw [update]
  simp only [if_pos h]

theorem advance_ok (s : ScalarKalman) (z : ℚ)
    (h : ¬ |s.predict.H * s.predict.P * s.predict.H + s.predict.R| < eps) :
    s.advance z = ((s.predict.update z).1, Except.ok (s.predict.update z).1.x) := by
  rw [advance, update_ok _ _ h]
  rfl

theorem advance_err (s : ScalarKalman) (z : ℚ)
    (h : |s.predict.H * s.predict.P * s.predict.H + s.predict.R| < eps) :
    s.advance z =
      (s.predict, Except.error (KalmanError.FailedScalarInverse
          "Innovation (measurement pre-fit residual `S`)")) := by
  rw [advance, update_err _ _ h]
  rfl

end ScalarKalman

theorem kfilter_nil_eq (s : ScalarKalman) : kfilter s [] = (s, Except.ok []) := rfl

theorem kfilter_cons_ok (s s1 : ScalarKalman) (v xv : ℚ) (rest : List ℚ)
    (h : s.advance v = (s1, Except.ok xv)) :
    kfilter s (v :: rest) =
      ((kfilter s1 rest).1, Except.map (fun out => xv :: out) (kfilter s1 rest).2) := by
  rw [kfilter, h]

theorem kfilter_cons_err (s s1 : ScalarKalman) (v : ℚ) (e : KalmanError) (rest : List ℚ)
    (h : s.advance v = (s1, Except.error e)) :
    kfilter s (v :: rest) = (s1, Except.error e) := by
  rw [kfilter, h]

theorem advanceEach_nil_eq (s : ScalarKalman) : advanceEach s [] = some (s, []) := rfl

theorem advanceEach_cons_ok (s s1 : ScalarKalman) (z v : ℚ) (rest : List ℚ)
    (h : s.advance z = (s1, Except.ok v)) :
    advanceEach s (z :: rest) = (advanceEach s1 rest).map fun p => (p.1, v :: p.2) := by
  rw [advanceEach, h]

theorem advanceEach_cons_err (s s1 : ScalarKalman) (z : ℚ) (e : KalmanError) (rest : List ℚ)
    (h : s.advance z = (s1, Except.error e)) :
    advanceEach s (z :: rest) = none := by
  rw [advanceEach, h]

theorem advanceEach_cons_elim (s sf : ScalarKalman) (z : ℚ) (rest : List ℚ)
    (outAll : List ℚ) (h : advanceEach s (z :: rest) = some (sf, outAll)) :
    ∃ s1 v out, s.advance z = (s1, Except.ok v) ∧
      advanceEach s1 rest = some (sf, out) ∧ outAll = v :: out := by
  rcases hadv : s.advance z with ⟨s1, r⟩
  cases r with
  | error e =>
    rw [advanceEach_cons_err s s1 z e rest hadv] at h
    exact Option.noConfusion h
  | ok v =>
    rw [advanceEach_cons_ok s s1 z v rest hadv] at h
    rcases hrec : advanceEach s1 rest with _ | ⟨s2, out⟩
    · rw [hrec] at h
      exact Option.noConfusion h
    · rw [hrec] at h
      simp only [Option.map_some', Option.some.injEq, Prod.mk.injEq] at h
      exact ⟨s1, v, out, rfl, by rw [hrec, h.1], h.2.symm⟩

theorem kfilter_of_advanceEach (obs : List ℚ) :
    ∀ s sf : ScalarKalman, ∀ out : List ℚ, advanceEach s obs = some (sf, out) →
      kfilter s obs = (sf, Except.ok out) ∧ out.length = obs.length := by
  induction obs with
  | nil =>
    intro s sf out h
    rw [advanceEach_nil_eq] at h
    simp only [Option.some.injEq, Prod.mk.injEq] at h
    obtain ⟨h1, h2⟩ := h
    subst h1
    subst h2
    exact ⟨kfilter_nil_eq s, rfl⟩
  | cons z rest ih =>
    intro s sf out h
    obtain ⟨s1, v, out', hadv, hrec, hout⟩ := advanceEach_cons_elim s sf z rest out h
    obtain ⟨hk, hlen⟩ := ih s1 sf out' hrec
    rw [kfilter_cons_ok s s1 z v rest hadv, hk, hout]
    exact ⟨rfl, by simp [hlen]⟩

theorem kfilter_err_after_prefix (pre : List ℚ) :
    ∀ s s1 : ScalarKalman, ∀ out : List ℚ, advanceEach s pre = some (s1, out) →
      ∀ zk : ℚ, ∀ s2 : ScalarKalman, ∀ e : KalmanError, ∀ rest : List ℚ,
        s1.advance zk = (s2, Except.error e) →
        kfilter s (pre ++ zk :: rest) = (s2, Except.error e) := by
  induction pre with
  | nil =>
    intro s s1 out h zk s2 e rest hfail
    rw [advanceEach_nil_eq] at h
    simp only [Option.some.injEq, Prod.mk.injEq] at h
    obtain ⟨h1, h2⟩ := h
    subst h1
    exact kfilter_cons_err s s2 zk e rest hfail
  | cons v pre ih =>
    intro s s1 out h zk s2 e rest hfail
    obtain ⟨sa, xv, out', hadv, hrec, hout⟩ := advanceEach_cons_elim s s1 v pre out h
    rw [List.cons_append, kfilter_cons_ok s sa v xv (pre ++ zk :: rest) hadv,
      ih sa s1 out' hrec zk s2 e rest hfail]
    rfl

namespace ScalarKalman

theorem update_coeffs (s : ScalarKalman) (z : ℚ) :
    (s.update z).1.A = s.A ∧ (s.update z).1.H = s.H ∧
      (s.update z).1.Q = s.Q ∧ (s.update z).1.R = s.R := by
  by_cases h : |s.H * s.P * s.H + s.R| < eps
  · rw [update_err s z h]
    exact ⟨rfl, rfl, rfl, rfl⟩
  · rw [update_ok s z h]
    exact ⟨rfl, rfl, rfl, rfl⟩

theorem advance_coeffs (s : ScalarKalman) (z : ℚ) :
    (s.advance z).1.A = s.A ∧ (s.advance z).1.H = s.H ∧
      (s.advance z).1.Q = s.Q ∧ (s.advance z).1.R = s.R := by
  have h1 : (s.advance z).1 = (s.predict.update z).1 := rfl
  have h2 := update_coeffs s.predict z
  rw [h1]
  exact ⟨h2.1, h2.2.1, h2.2.2.1, h2.2.2.2⟩

end ScalarKalman

theorem kfilter_coeffs (vec : List ℚ) :
    ∀ s : ScalarKalman, (kfilter s vec).1.A = s.A ∧ (kfilter s vec).1.H = s.H ∧
      (kfilter s vec).1.Q = s.Q ∧ (kfilter s vec).1.R = s.R := by
  induction vec with
  | nil => intro s; exact ⟨rfl, rfl, rfl, rfl⟩
  | cons v rest ih =>
    intro s
    have hadv := s.advance_coeffs v
    rcases h : s.advance v with ⟨s1, r⟩
    rw [h] at hadv
    cases r with
    | ok xv =>
      rw [kfilter_cons_ok s s1 v xv rest h]
      have hk := ih s1
      exact ⟨hk.1.trans hadv.1, (hk.2.1).trans hadv.2.1,
        (hk.2.2.1).trans hadv.2.2.1, (hk.2.2.2).trans hadv.2.2.2⟩
    | error e =>
      rw [kfilter_cons_err s s1 v e rest h]
      exact hadv

namespace ScalarKalman

theorem advance_const_form (x P : ℚ) (hP : 0 ≤ P) :
    (ScalarKalman.mk x P 1 1 0 1).advance 5 =
      (ScalarKalman.mk (x + (5 - x) * (P / (P + 1))) (P / (P + 1)) 1 1 0 1,
        Except.ok (x + (5 - x) * (P / (P + 1)))) := by
  have hP1 : (0:ℚ) < P + 1 := by linarith
  have hS : (ScalarKalman.mk x P 1 1 0 1).predict.H * (ScalarKalman.mk x P 1 1 0 1).predict.P *
      (ScalarKalman.mk x P 1 1 0 1).predict.H + (ScalarKalman.mk x P 1 1 0 1).predict.R
        = P + 1 := by
    simp only [predict]
    ring
  have hcond : ¬ |(ScalarKalman.mk x P 1 1 0 1).predict.H * (ScalarKalman.mk x P 1 1 0 1).predict.P *
      (ScalarKalman.mk x P 1 1 0 1).predict.H + (ScalarKalman.mk x P 1 1 0 1).predict.R| < eps := by
    rw [hS, abs_of_pos hP1, not_lt]
    calc eps ≤ 1 := by norm_num [eps]
    _ ≤ P + 1 := by linarith
  rw [advance_ok _ _ hcond, update_ok _ _ hcond]
  simp only [predict, Prod.mk.injEq, Except.ok.injEq, ScalarKalman.mk.injEq]
  have hne : P + 1 ≠ 0 := ne_of_gt hP1
  refine ⟨⟨?_, ?_, trivial, trivial, trivial, trivial⟩, ?_⟩ <;>
    (field_simp; try ring)

end ScalarKalman

namespace ScalarKalman

theorem abs_step_le (x P : ℚ) (hP : 0 ≤ P) :
    |x + (5 - x) * (P / (P + 1)) - 5| ≤ |x - 5| := by
  have hP1 : (0:ℚ) < P + 1 := by linarith
  have hkey : x + (5 - x) * (P / (P + 1)) - 5 = (x - 5) * (1 / (P + 1)) := by
    field_simp
    ring
  rw [hkey, abs_mul, abs_of_pos (show (0:ℚ) < 1 / (P + 1) by positivity)]
  calc |x - 5| * (1 / (P + 1)) ≤ |x - 5| * 1 := by
        apply mul_le_mul_of_nonneg_left _ (abs_nonneg _)
        rw [div_le_one hP1]
        linarith
  _ = |x - 5| := mul_one _

theorem advanceIter_const (x0 P0 : ℚ) (hP : 0 ≤ P0) (n : ℕ) :
    ∃ x P, 0 ≤ P ∧
      advanceIter (ScalarKalman.new 1 1 0 1 (some x0) (some P0)) 5 n =
        ScalarKalman.mk x P 1 1 0 1 := by
  induction n with
  | zero => exact ⟨x0, P0, hP, rfl⟩
  | succ n ih =>
    obtain ⟨x, P, hP', heq⟩ := ih
    refine ⟨x + (5 - x) * (P / (P + 1)), P / (P + 1), div_nonneg hP' (by linarith), ?_⟩
    show ((advanceIter _ 5 n).advance 5).1 = _
    rw [heq, advance_const_form x P hP']

end ScalarKalman

/-- Claim C1: for every filter state and every observation `z`, if
`S = H * P * H + R` has `|S| ≥ 1e-8`, then `update z` succeeds and its only
effect is to set `x` to `x + K * y` and `P` to `P * (1 - K * H)`, where
`y = z - H * x` and `K = P * H / S` are computed from the pre-call values of
`x` and `P`; all other fields are unchanged. -/
theorem update_success_spec (s : ScalarKalman) (z : ℚ)
    (h : eps ≤ |s.H * s.P * s.H + s.R|) :
    s.update z =
      ({ s with
          x := s.x + s.P * s.H / (s.H * s.P * s.H + s.R) * (z - s.H * s.x),
          P := s.P * (1 - s.P * s.H / (s.H * s.P * s.H + s.R) * s.H) },
        Except.ok ()) := by
  rw [ScalarKalman.update_ok s z (not_lt.mpr h)]
  simp only [mul_one_div]

/-- Witness for C1 at the state `x = 0, P = 1, A = 1, H = 1, Q = 0, R = 1`
and observation `z = 5`, where `S = 2`. -/
theorem update_success_spec_witness :
    eps ≤ |(ScalarKalman.mk 0 1 1 1 0 1).H * (ScalarKalman.mk 0 1 1 1 0 1).P *
        (ScalarKalman.mk 0 1 1 1 0 1).H + (ScalarKalman.mk 0 1 1 1 0 1).R| ∧
      (ScalarKalman.mk 0 1 1 1 0 1).update 5 =
        (ScalarKalman.mk (5/2) (1/2) 1 1 0 1, Except.ok ()) := by
  constructor
  · norm_num [eps]
  · rw [update_success_spec (ScalarKalman.mk 0 1 1 1 0 1) 5 (by norm_num [eps])]
    norm_num

/-- Claim C2: `update z` returns the `FailedScalarInverse` error exactly when
`|H * P * H + R| < 1e-8`, fails for no other reason, and on the error path
the whole state — `x`, `P` and all other fields — equals its pre-call
value (no partial mutation). -/
theorem update_guard_spec (s : ScalarKalman) (z : ℚ) :
    (s.update z = (s, Except.error (KalmanError.FailedScalarInverse
        "Innovation (measurement pre-fit residual `S`)")) ↔
      |s.H * s.P * s.H + s.R| < eps) ∧
    (eps ≤ |s.H * s.P * s.H + s.R| → (s.update z).2 = Except.ok ()) := by
  constructor
  · constructor
    · intro h
      by_contra hc
      rw [ScalarKalman.update_ok s z hc] at h
      have h2 := congrArg Prod.snd h
      simp at h2
    · intro h
      exact ScalarKalman.update_err s z h
  · intro h
    rw [ScalarKalman.update_ok s z (not_lt.mpr h)]

/-- Witness for C2 at the state `x = 2, P = 3, A = 1, H = 0, Q = 1, R = 0`
and observation `z = 7`, where `S = 0`. -/
theorem update_guard_spec_witness :
    |(ScalarKalman.mk 2 3 1 0 1 0).H * (ScalarKalman.mk 2 3 1 0 1 0).P *
        (ScalarKalman.mk 2 3 1 0 1 0).H + (ScalarKalman.mk 2 3 1 0 1 0).R| < eps ∧
      (ScalarKalman.mk 2 3 1 0 1 0).update 7 =
        (ScalarKalman.mk 2 3 1 0 1 0, Except.error (KalmanError.FailedScalarInverse
          "Innovation (measurement pre-fit residual `S`)")) :=
  ⟨by norm_num [eps],
    (update_guard_spec (ScalarKalman.mk 2 3 1 0 1 0) 7).1.mpr (by norm_num [eps])⟩

/-- Claim C5: `predict` never fails (it is a total function into the state
type), and its only effect is to set `x` to `A * x` and `P` to
`A * P * A + Q`, computed from the pre-call values; `A`, `H`, `Q`, `R` are
untouched. -/
theorem predict_spec (s : ScalarKalman) :
    s.predict.x = s.A * s.x ∧ s.predict.P = s.A * s.P * s.A + s.Q ∧
      s.predict.A = s.A ∧ s.predict.H = s.H ∧ s.predict.Q = s.Q ∧ s.predict.R = s.R :=
  ⟨mul_comm s.x s.A, rfl, rfl, rfl, rfl, rfl⟩

/-- Claim C10: calling `kfilter` with an empty observation sequence always
succeeds, returns an empty output sequence, and leaves every field of the
state unchanged — for every state, including any on which an update would
trip the singularity guard. -/
theorem kfilter_empty_spec (s : ScalarKalman) : kfilter s [] = (s, Except.ok []) := rfl

/-- Claim C3: `advance z` performs `predict` and then `update z`; if the
update fails, `advance` returns that error with the state left in the
post-predict condition (the predict step is not rolled back); if the update
succeeds, `advance` returns the value of `x` after the update. -/
theorem advance_compose_spec (s : ScalarKalman) (z : ℚ) :
    (∀ e : KalmanError, (s.predict.update z).2 = Except.error e →
      s.advance z = (s.predict, Except.error e)) ∧
    ((s.predict.update z).2 = Except.ok () →
      s.advance z = ((s.predict.update z).1, Except.ok (s.predict.update z).1.x)) := by
  constructor
  · intro e he
    by_cases h : |s.predict.H * s.predict.P * s.predict.H + s.predict.R| < eps
    · rw [ScalarKalman.update_err s.predict z h] at he
      simp only [Except.error.injEq] at he
      rw [ScalarKalman.advance_err s z h, he]
    · rw [ScalarKalman.update_ok s.predict z h] at he
      exact absurd he (by simp)
  · intro hok
    by_cases h : |s.predict.H * s.predict.P * s.predict.H + s.predict.R| < eps
    · rw [ScalarKalman.update_err s.predict z h] at hok
      exact absurd hok (by simp)
    · exact ScalarKalman.advance_ok s z h

/-- Witness for C3 at the state `x = 2, P = 3, A = 1, H = 0, Q = 0, R = 0`
and observation `z = 7`: after predict the state is unchanged and
`S = 0`, so the update inside `advance` fails and the returned state is the
post-predict one. -/
theorem advance_compose_spec_witness :
    ((ScalarKalman.mk 2 3 1 0 0 0).predict.update 7).2 =
        Except.error (KalmanError.FailedScalarInverse
          "Innovation (measurement pre-fit residual `S`)") ∧
      (ScalarKalman.mk 2 3 1 0 0 0).advance 7 =
        ((ScalarKalman.mk 2 3 1 0 0 0).predict,
          Except.error (KalmanError.FailedScalarInverse
            "Innovation (measurement pre-fit residual `S`)")) := by
  have h : ((ScalarKalman.mk 2 3 1 0 0 0).predict.update 7).2 =
      Except.error (KalmanError.FailedScalarInverse
        "Innovation (measurement pre-fit residual `S`)") := by
    rw [ScalarKalman.update_err _ 7 (by norm_num [ScalarKalman.predict, eps])]
  exact ⟨h, (advance_compose_spec (ScalarKalman.mk 2 3 1 0 0 0) 7).1 _ h⟩

/-- Counterexample for C8: at the singular state `x = 2, P = 3, A = 1,
H = 0, Q = 1, R = 0` with `z = 7`, `update` fails, but the returned error
does not carry the scalar name `"S"`: its `scalar_name` field is the longer
phrase `"Innovation (measurement pre-fit residual \x60S\x60)"`. -/
theorem error_scalar_name_counterexample :
    ((ScalarKalman.mk 2 3 1 0 1 0).update 7).2 =
        Except.error (KalmanError.FailedScalarInverse
          "Innovation (measurement pre-fit residual `S`)") ∧
      KalmanError.FailedScalarInverse "Innovation (measurement pre-fit residual `S`)" ≠
        KalmanError.FailedScalarInverse "S" := by
  constructor
  · rw [ScalarKalman.update_err _ 7 (by norm_num [eps])]
  · decide

/-- Claim C8 as amended: whenever `update` fails, the returned error is
`FailedScalarInverse` whose `scalar_name` is the phrase
`"Innovation (measurement pre-fit residual \x60S\x60)"` — identifying the
scalar `S` and the innovation computation — and the user-visible message is
that phrase spliced into `"failed to invert scalar ... in operation"`. -/
theorem error_message_spec (s : ScalarKalman) (z : ℚ) (e : KalmanError)
    (h : (s.update z).2 = Except.error e) :
    e = KalmanError.FailedScalarInverse "Innovation (measurement pre-fit residual `S`)" ∧
      e.message = "failed to invert scalar " ++
        "Innovation (measurement pre-fit residual `S`)" ++ " in operation" := by
  by_cases hc : |s.H * s.P * s.H + s.R| < eps
  · rw [ScalarKalman.update_err s z hc] at h
    simp only [Except.error.injEq] at h
    subst h
    exact ⟨rfl, rfl⟩
  · rw [ScalarKalman.update_ok s z hc] at h
    exact absurd h (by simp)

/-- Witness for the amended C8 at the singular state of the counterexample. -/
theorem error_message_spec_witness :
    ((ScalarKalman.mk 2 3 1 0 1 0).update 7).2 =
        Except.error (KalmanError.FailedScalarInverse
          "Innovation (measurement pre-fit residual `S`)") ∧
      ((KalmanError.FailedScalarInverse
            "Innovation (measurement pre-fit residual `S`)" =
          KalmanError.FailedScalarInverse
            "Innovation (measurement pre-fit residual `S`)") ∧
        (KalmanError.FailedScalarInverse
            "Innovation (measurement pre-fit residual `S`)").message =
          "failed to invert scalar " ++
            "Innovation (measurement pre-fit residual `S`)" ++ " in operation") := by
  have h : ((ScalarKalman.mk 2 3 1 0 1 0).update 7).2 =
      Except.error (KalmanError.FailedScalarInverse
        "Innovation (measurement pre-fit residual `S`)") := by
    rw [ScalarKalman.update_err _ 7 (by norm_num [eps])]
  exact ⟨h, error_message_spec (ScalarKalman.mk 2 3 1 0 1 0) 7 _ h⟩

/-- Claim C9: every operation — `new`, `predict`, `update` (either branch),
`advance`, and the batch `kfilter` — leaves the coefficient fields `A`, `H`,
`Q`, `R` exactly as stored at construction; only `x` and `P` are ever
mutated. -/
theorem coefficients_frame_spec (a c q r : ℚ) (x0 P0 : Option ℚ) (s : ScalarKalman)
    (z : ℚ) (vec : List ℚ) :
    ((ScalarKalman.new a c q r x0 P0).A = a ∧ (ScalarKalman.new a c q r x0 P0).H = c ∧
      (ScalarKalman.new a c q r x0 P0).Q = q ∧ (ScalarKalman.new a c q r x0 P0).R = r) ∧
    (s.predict.A = s.A ∧ s.predict.H = s.H ∧ s.predict.Q = s.Q ∧ s.predict.R = s.R) ∧
    ((s.update z).1.A = s.A ∧ (s.update z).1.H = s.H ∧ (s.update z).1.Q = s.Q ∧
      (s.update z).1.R = s.R) ∧
    ((s.advance z).1.A = s.A ∧ (s.advance z).1.H = s.H ∧ (s.advance z).1.Q = s.Q ∧
      (s.advance z).1.R = s.R) ∧
    ((kfilter s vec).1.A = s.A ∧ (kfilter s vec).1.H = s.H ∧ (kfilter s vec).1.Q = s.Q ∧
      (kfilter s vec).1.R = s.R) :=
  ⟨⟨rfl, rfl, rfl, rfl⟩, ⟨rfl, rfl, rfl, rfl⟩, s.update_coeffs z, s.advance_coeffs z,
    kfilter_coeffs vec s⟩

/-- Claim C4: for every initial state and observation sequence on which no
step is singular — expressed as `advanceEach` (one `advance` call per
observation, in order, against the threaded state) succeeding with final
state `sf` and outputs `out` — the batch `kfilter` returns exactly that
output sequence, of the same length as the input, and leaves the state in
exactly the final condition `sf` that the per-element `advance` sequence
produces. -/
theorem kfilter_batch_equiv_spec (s sf : ScalarKalman) (obs out : List ℚ)
    (h : advanceEach s obs = some (sf, out)) :
    kfilter s obs = (sf, Except.ok out) ∧ out.length = obs.length :=
  kfilter_of_advanceEach obs s sf out h

/-- Witness for C4: the filter `x = 0, P = 1, A = 1, H = 1, Q = 0, R = 1` on
the one-element batch `[5]`, whose advance sequence yields `[5/2]`. -/
theorem kfilter_batch_equiv_spec_witness :
    advanceEach (ScalarKalman.mk 0 1 1 1 0 1) [5] =
        some (ScalarKalman.mk (5/2) (1/2) 1 1 0 1, [5/2]) ∧
      (kfilter (ScalarKalman.mk 0 1 1 1 0 1) [5] =
          (ScalarKalman.mk (5/2) (1/2) 1 1 0 1, Except.ok [5/2]) ∧
        ([5/2] : List ℚ).length = ([5] : List ℚ).length) := by
  have hadv : (ScalarKalman.mk 0 1 1 1 0 1).advance 5 =
      (ScalarKalman.mk (5/2) (1/2) 1 1 0 1, Except.ok (5/2)) := by
    rw [ScalarKalman.advance_ok _ 5 (by norm_num [ScalarKalman.predict, eps])]
    rw [ScalarKalman.update_ok _ 5 (by norm_num [ScalarKalman.predict, eps])]
    norm_num [ScalarKalman.predict]
  have heach : advanceEach (ScalarKalman.mk 0 1 1 1 0 1) [5] =
      some (ScalarKalman.mk (5/2) (1/2) 1 1 0 1, [5/2]) := by
    rw [advanceEach_cons_ok _ _ 5 (5/2) [] hadv]
    rfl
  exact ⟨heach, kfilter_batch_equiv_spec _ _ [5] [5/2] heach⟩

/-- Claim C6: if the observations before position `k` all succeed (expressed
by `advanceEach` on the prefix `pre` reaching state `s1` with outputs `out`)
and the `k`-th observation `zk` makes `advance` fail with an error `e`, then
the batch `kfilter` on `pre ++ zk :: rest` returns that error and no output
sequence — the estimates collected for the prefix are discarded — and the
state retains the partial mutation accumulated up through the failing
element (the state `s2` that the failing `advance` left). -/
theorem kfilter_failfast_spec (s s1 s2 : ScalarKalman) (pre out : List ℚ)
    (zk : ℚ) (e : KalmanError) (rest : List ℚ)
    (hpre : advanceEach s pre = some (s1, out))
    (hfail : s1.advance zk = (s2, Except.error e)) :
    kfilter s (pre ++ zk :: rest) = (s2, Except.error e) :=
  kfilter_err_after_prefix pre s s1 out hpre zk s2 e rest hfail

/-- Witness for C6: with `x = 0, P = 1, A = 1, H = 1, Q = 0, R = 0` the
first observation `5` succeeds (reaching `x = 5, P = 0`), the second
observation `7` fails (`S = 0`), and the batch `[5, 7, 9]` returns the error
with the post-failure state, discarding the collected `[5]`. -/
theorem kfilter_failfast_spec_witness :
    advanceEach (ScalarKalman.mk 0 1 1 1 0 0) [5] =
        some (ScalarKalman.mk 5 0 1 1 0 0, [5]) ∧
      (ScalarKalman.mk 5 0 1 1 0 0).advance 7 =
        (ScalarKalman.mk 5 0 1 1 0 0, Except.error (KalmanError.FailedScalarInverse
          "Innovation (measurement pre-fit residual `S`)")) ∧
      kfilter (ScalarKalman.mk 0 1 1 1 0 0) [5, 7, 9] =
        (ScalarKalman.mk 5 0 1 1 0 0, Except.error (KalmanError.FailedScalarInverse
          "Innovation (measurement pre-fit residual `S`)")) := by
  have hadv : (ScalarKalman.mk 0 1 1 1 0 0).advance 5 =
      (ScalarKalman.mk 5 0 1 1 0 0, Except.ok 5) := by
    rw [ScalarKalman.advance_ok _ 5 (by norm_num [ScalarKalman.predict, eps])]
    rw [ScalarKalman.update_ok _ 5 (by norm_num [ScalarKalman.predict, eps])]
    norm_num [ScalarKalman.predict]
  have heach : advanceEach (ScalarKalman.mk 0 1 1 1 0 0) [5] =
      some (ScalarKalman.mk 5 0 1 1 0 0, [5]) := by
    rw [advanceEach_cons_ok _ _ 5 5 [] hadv]
    rfl
  have hfail : (ScalarKalman.mk 5 0 1 1 0 0).advance 7 =
      (ScalarKalman.mk 5 0 1 1 0 0, Except.error (KalmanError.FailedScalarInverse
        "Innovation (measurement pre-fit residual `S`)")) := by
    rw [ScalarKalman.advance_err _ 7 (by norm_num [ScalarKalman.predict, eps])]
    norm_num [ScalarKalman.predict]
  exact ⟨heach, hfail,
    kfilter_failfast_spec _ _ _ [5] [5] 7 _ [9] heach hfail⟩

/-- Claim C7: for a filter constructed with `A = 1, H = 1, Q = 0, R = 1` and
any initial `x0` and `P0 ≥ 0`, each of the repeated `advance` calls with the
constant observation `z = 5` succeeds and returns the new estimate, the
distance `|x - 5|` never increases from one step to the next, and the
variance `P` stays nonnegative and never increases — `x` moves monotonically
toward `5` and `P` decreases monotonically toward `0`. -/
theorem advance_convergence_spec (x0 P0 : ℚ) (hP : 0 ≤ P0) (n : ℕ) :
    ((advanceIter (ScalarKalman.new 1 1 0 1 (some x0) (some P0)) 5 n).advance 5).2 =
        Except.ok
          (((advanceIter (ScalarKalman.new 1 1 0 1 (some x0) (some P0)) 5 n).advance 5).1.x) ∧
      |((advanceIter (ScalarKalman.new 1 1 0 1 (some x0) (some P0)) 5 n).advance 5).1.x - 5| ≤
        |(advanceIter (ScalarKalman.new 1 1 0 1 (some x0) (some P0)) 5 n).x - 5| ∧
      0 ≤ ((advanceIter (ScalarKalman.new 1 1 0 1 (some x0) (some P0)) 5 n).advance 5).1.P ∧
      ((advanceIter (ScalarKalman.new 1 1 0 1 (some x0) (some P0)) 5 n).advance 5).1.P ≤
        (advanceIter (ScalarKalman.new 1 1 0 1 (some x0) (some P0)) 5 n).P := by
  obtain ⟨x, P, hP2, heq⟩ := ScalarKalman.advanceIter_const x0 P0 hP n
  rw [heq, ScalarKalman.advance_const_form x P hP2]
  refine ⟨rfl, ?_, ?_, ?_⟩
  · exact ScalarKalman.abs_step_le x P hP2
  · exact div_nonneg hP2 (by linarith)
  · exact div_le_self hP2 (by linarith)

/-- Witness for C7 at `x0 = 0, P0 = 1, n = 0`. -/
theorem advance_convergence_spec_witness :
    (0:ℚ) ≤ 1 ∧
      (((advanceIter (ScalarKalman.new 1 1 0 1 (some 0) (some 1)) 5 0).advance 5).2 =
          Except.ok
            (((advanceIter (ScalarKalman.new 1 1 0 1 (some 0) (some 1)) 5 0).advance 5).1.x) ∧
        |((advanceIter (ScalarKalman.new 1 1 0 1 (some 0) (some 1)) 5 0).advance 5).1.x - 5| ≤
          |(advanceIter (ScalarKalman.new 1 1 0 1 (some 0) (some 1)) 5 0).x - 5| ∧
        0 ≤ ((advanceIter (ScalarKalman.new 1 1 0 1 (some 0) (some 1)) 5 0).advance 5).1.P ∧
        ((advanceIter (ScalarKalman.new 1 1 0 1 (some 0) (some 1)) 5 0).advance 5).1.P ≤
          (advanceIter (ScalarKalman.new 1 1 0 1 (some 0) (some 1)) 5 0).P) :=
  ⟨by norm_num, advance_convergence_spec 0 1 (by norm_num) 0⟩
